import Mathlib

/-!
Shallow embedding of `lib/Localization/LocalizationFormat.cpp`: the
localized-diagnostics message store (facade with lazy one-shot
initialization), its three backends (serialized binary table, YAML
structured list, flat `.strings` text), the two `.def`-to-text
converters, and the backend-selection function `producerFor`.

Modelling conventions:
* Byte strings are `List Nat` (each element one byte); text is `String`
  or `List Char`.
* The closed identifier space (generated from `DiagnosticsAll.def`,
  external to this file's source) is a parameter `names : List String`
  listing identifier names in declaration order; a `DiagID` is an index
  into it and `NumDiags = names.length`.
* Fallible operations return `Option`; an out-of-bounds `std::vector`
  access (no bounds check in the source) is modelled as `List.get?`,
  whose `none` result marks the access as out of range.
-/

namespace LocalizationFormat

/-- Embedding of `LocalizationProducerState` from the header: the one-shot
initialization state of a message store. -/
inductive LocalizationProducerState where
  | NotInitialized
  | Initialized
  | FailedInitialization
deriving DecidableEq, Repr

open LocalizationProducerState

/-- In-memory part of a text-backed `LocalizationProducer`: the
initialization state and the `diagnostics` vector of localized messages
(indexed by diagnostic id). -/
structure ProducerModel where
  state : LocalizationProducerState
  diagnostics : List String
deriving DecidableEq, Repr

/-- A freshly constructed producer: no I/O has happened yet. -/
def ProducerModel.mk0 : ProducerModel :=
  { state := NotInitialized, diagnostics := [] }

/-- A backend's `initializeImpl` outcome: the returned success flag and
the `diagnostics` vector it filled in. -/
def InitImpl := Bool × List String

/-- Embedding of `LocalizationProducer::initializeIfNeeded` (LocalizationFormat.cpp
lines 96-104): if the state is not `NotInitialized` return at once;
otherwise run `initializeImpl` and set the state to `Initialized` on
`true` and `FailedInitialization` on `false`. -/
def initializeIfNeeded (impl : InitImpl) (p : ProducerModel) : ProducerModel :=
  if p.state ≠ NotInitialized then p
  else if impl.1 then { state := Initialized, diagnostics := impl.2 }
  else { state := FailedInitialization, diagnostics := impl.2 }

/-- The `diagnosticNameStrings` table (lines 42-46): `" [<ID>]"` per
identifier, with a final `"<not a diagnostic>"` slot at index
`NumDiags`. -/
def diagnosticNameString (names : List String) (id : Nat) : String :=
  if id < names.length then " [" ++ names.getD id "" ++ "]"
  else "<not a diagnostic>"

/-- Embedding of `LocalizationProducer::getMessageOr` (lines 106-124), parameterized
by the backend's `initializeImpl` outcome and its `getMessage`
function on the loaded `diagnostics` vector.  Returns the producer
after initialization together with the message handed to the caller. -/
def getMessageOr (impl : InitImpl) (getMessage : List String → Nat → String)
    (printDiagnosticNames : Bool) (names : List String)
    (p : ProducerModel) (id : Nat) (defaultMessage : String) :
    ProducerModel × String :=
  let p' := initializeIfNeeded impl p
  if p'.state = FailedInitialization then (p', defaultMessage)
  else
    let localizedMessage := getMessage p'.diagnostics id
    if localizedMessage = "" then (p', defaultMessage)
    else if printDiagnosticNames then
      (p', localizedMessage ++ diagnosticNameString names id)
    else (p', localizedMessage)

/-- The shared `forEachAvailable` loop body (lines 177-181 and 337-341):
visit indices `i, i+1, ...` of the `diagnostics` vector and emit
`(i, translation)` for each non-empty translation.  The returned list
is the sequence of callback invocations. -/
def forEachLoop (diagnostics : List String) (i : Nat) : List (Nat × String) :=
  if h : i < diagnostics.length then
    let translation := diagnostics.getD i ""
    if translation = "" then forEachLoop diagnostics (i + 1)
    else (i, translation) :: forEachLoop diagnostics (i + 1)
  else []
termination_by diagnostics.length - i

/-- Embedding of `forEachAvailable` (lines 170-182 for YAML, 330-342 for strings;
the two bodies are identical): initialize if needed, invoke the
callback zero times on `FailedInitialization`, otherwise run the loop
over the whole vector.  Result: the producer after initialization and
the list of callback invocations in order. -/
def forEachAvailable (impl : InitImpl) (p : ProducerModel) :
    ProducerModel × List (Nat × String) :=
  let p' := initializeIfNeeded impl p
  if p'.state = FailedInitialization then (p', [])
  else (p', forEachLoop p'.diagnostics 0)

/-! ## YAML backend: `readYAML`, `operator>>`, `YAMLLocalizationProducer` -/

/-- Embedding of `ScalarEnumerationTraits<LocalDiagID>::enumeration` together with
`LocalizationInput::readID` (lines 53-63 and 217-223): map a record's
string id to its index in the identifier space; an unrecognized name
falls back to `NumDiags`, which `readID` reports as `none`. -/
def readID (names : List String) (id : String) : Option Nat :=
  names.indexOf? id

/-- One YAML record as handed to `readYAML` by the YAML I/O layer: the
string of the `id` field and the string of the `msg` field. -/
def YAMLRecord := String × String

/-- The loop body of `readYAML` (lines 233-257) for one record: store
`msg` at the recognized id's slot, or append the raw id string to
`unknownIDs` — the `msg` of an unknown record is read into a local and
dropped. -/
def readYAMLStep (names : List String) (acc : List String × List String)
    (r : YAMLRecord) : List String × List String :=
  match readID names r.1 with
  | some id => (acc.1.set id r.2, acc.2)
  | none => (acc.1, acc.2 ++ [r.1])

/-- Embedding of `readYAML` (lines 225-259): if the top-level sequence is non-empty,
resize the diagnostics vector to `NumDiags` (empty strings); then run
`readYAMLStep` over the records in order.  Returns
`(diagnostics, unknownIDs)`. -/
def readYAML (names : List String) (records : List YAMLRecord) :
    List String × List String :=
  let Seq : List String :=
    if records.length ≠ 0 then List.replicate names.length "" else []
  records.foldl (readYAMLStep names) (Seq, [])

/-- The content of a successfully read backing file, as the YAML
library hands it to the parser: either no YAML document at all
(`setCurrentDocument` fails) or a parsed top-level sequence of
records. -/
inductive YAMLDoc where
  | noDocument
  | records (rs : List YAMLRecord)

/-- Embedding of `operator>>` on `LocalizationInput` (lines 261-272),
for a file whose read succeeded: when `setCurrentDocument` fails there
is no document and the diagnostics vector is left empty; otherwise
`readYAML` runs. -/
def yamlParse (names : List String) (doc : YAMLDoc) :
    List String × List String :=
  match doc with
  | YAMLDoc.noDocument => ([], [])
  | YAMLDoc.records rs => readYAML names rs

/-- Embedding of `YAMLLocalizationProducer::initializeImpl` (lines
157-164).  `file` is the outcome of `getFileOrSTDIN`: `none` when the
file is missing or unreadable.  The source dereferences the returned
`ErrorOr` without an error check (line 159), which on a failed read is
fatal (assertion failure / invalid pointer) — modelled as the `none`
outcome, in which no value is returned at all.  On a successful read
the file is parsed into `diagnostics` and the single `return`
statement, `return true`, runs. -/
def yamlInitializeImpl (names : List String) (file : Option YAMLDoc) :
    Option InitImpl :=
  match file with
  | none => none
  | some doc => some (true, (yamlParse names doc).1)

/-- Embedding of `YAMLLocalizationProducer::getMessage` (lines 166-168):
`diagnostics[(unsigned)id]` with no bounds check; `none` models the
out-of-range access. -/
def yamlGetMessage (diagnostics : List String) (id : Nat) : Option String :=
  diagnostics.get? id

/-- The `MessageCatalog` abstraction over the diagnostics vector: the
localized message of slot `i`, absent when the slot is out of range or
holds the empty string (empty means "not localized"). -/
def slotLookup (catalog : List String) (i : Nat) : Option String :=
  match catalog.get? i with
  | some s => if s = "" then none else some s
  | none => none

/-! ## Flat-text backend: the `.strings` message scanner -/

/-- The message-scanning loop of
`StringsLocalizationProducer::readStringsFile` (lines 401-438).
`buffer` is the text after the message's opening quote was consumed,
`i` the scan position, `msg` the accumulated message.  A quote whose
preceding character is a backslash is un-escaped (the pushed backslash
is popped and a literal quote pushed); an unescaped quote followed by
`;` ends the message, returning it with the index just past the `;`;
an unescaped quote not followed by `;` hits `llvm_unreachable`
("malformed diagnostics file"), and running out of input trips the
`assert(isValid)` — both fatal, modelled as `none` (as is the
`assert(i > 0)` guard for a quote at position 0). -/
def scanMessage (buffer : List Char) (i : Nat) (msg : List Char) :
    Option (List Char × Nat) :=
  if h : i < buffer.length then
    let c := buffer.getD i ' '
    if c ≠ '\"' then scanMessage buffer (i + 1) (msg ++ [c])
    else if hz : i = 0 then none
    else if buffer.getD (i - 1) ' ' = '\\' then
      scanMessage buffer (i + 1) (msg.dropLast ++ ['\"'])
    else if i + 1 < buffer.length ∧ buffer.getD (i + 1) ' ' = ';' then
      some (msg, i + 2)
    else none
  else none
termination_by buffer.length - i

/-- Embedding of `StringsLocalizationProducer::initializeImpl` (lines
318-323).  `file` is the outcome of `getFileOrSTDIN`, with a present
file abstracted to the diagnostics vector `readStringsFile` fills from
it (the message-scanning core of that parse is embedded separately as
`scanMessage`).  The source dereferences the returned `ErrorOr`
without an error check (lines 319-320), which on a missing or
unreadable file is fatal — modelled as the `none` outcome, in which no
value is returned at all.  On a successful read the single `return`
statement, `return true`, runs. -/
def stringsInitializeImpl (file : Option (List String)) : Option InitImpl :=
  match file with
  | none => none
  | some diagnostics => some (true, diagnostics)

/-- Embedding of `LocalizationProducer::initializeIfNeeded` (lines
96-104) with the fallibility of the backend's `initializeImpl` made
explicit: if the state is not `NotInitialized` nothing runs; otherwise
`initializeImpl` runs, and when it is fatal (`none`) the program
aborts inside it — no producer state survives, which `none` models.
When it completes, the state is set from its flag exactly as in
`initializeIfNeeded`. -/
def initializeIfNeededOpt (impl? : Option InitImpl) (p : ProducerModel) :
    Option ProducerModel :=
  if p.state ≠ NotInitialized then some p
  else
    match impl? with
    | none => none
    | some impl => some (initializeIfNeeded impl p)

/-! ## `producerFor` backend selection -/

/-- The three concrete producer classes `producerFor` can construct. -/
inductive ProducerKind where
  | serialized
  | yaml
  | strings
deriving DecidableEq, Repr

/-- Embedding of `LocalizationProducer::producerFor` (lines 184-215), with the file
system abstracted to four booleans: whether `<locale>.db` exists,
whether opening it succeeds, and whether `<locale>.yaml` and
`<locale>.strings` exist.  When the `.db` file exists, the `else`
branch holding both text-format attempts is skipped entirely, so a
failed open falls through to the final `return nullptr`. -/
def producerFor (dbExists dbOpens yamlExists stringsExists : Bool) :
    Option ProducerKind :=
  if dbExists then
    if dbOpens then some ProducerKind.serialized else none
  else
    if yamlExists then some ProducerKind.yaml
    else if stringsExists then some ProducerKind.strings
    else none

/-! ## Binary table codec -/

/-- Little-endian serialization of a 32-bit value, byte by byte, as
`llvm::support::endian::write<offset_type>` produces on disk. -/
def writeLE32 (n : Nat) : List Nat :=
  [n % 256, n / 256 % 256, n / 256 / 256 % 256, n / 256 / 256 / 256 % 256]

/-- Little-endian read of a 32-bit value at byte offset `off`, as
`endian::read<offset_type>` (line 138) consumes it. -/
def readLE32 (file : List Nat) (off : Nat) : Nat :=
  file.getD off 0 +
    256 * (file.getD (off + 1) 0 +
      256 * (file.getD (off + 2) 0 + 256 * file.getD (off + 3) 0))

/-- Modelled from the spec: one entry of the on-disk associative index
built by `llvm::OnDiskChainedHashTableGenerator`, which is external to
the repository.  Per the spec the index maps `identifier: uint32` to a
byte string; an entry is stored as the little-endian id, the
little-endian byte length, then the raw message bytes. -/
def encodeEntry (e : Nat × List Nat) : List Nat :=
  writeLE32 e.1 ++ writeLE32 e.2.length ++ e.2

/-- Modelled from the spec: the data region of the on-disk index, the
entries laid out consecutively after the 4-byte header. -/
def encodeEntries : List (Nat × List Nat) → List Nat
  | [] => []
  | e :: es => encodeEntry e ++ encodeEntries es

/-- In-memory state of `SerializedLocalizationWriter`: the insertions
handed to the generator, in order. -/
structure SerializedLocalizationWriter where
  entries : List (Nat × List Nat)
deriving DecidableEq, Repr

/-- Embedding of `SerializedLocalizationWriter::insert` (lines 71-74): record the
`(uint32 id, translation)` pair in the generator. -/
def SerializedLocalizationWriter.insert (w : SerializedLocalizationWriter)
    (id : Nat) (translation : List Nat) : SerializedLocalizationWriter :=
  ⟨w.entries ++ [(id, translation)]⟩

/-- Embedding of `SerializedLocalizationWriter::emit` (lines 76-94): write a 4-byte
little-endian placeholder, emit the index (data region, then its root
— here the entry count — whose offset `generator.Emit` returns), then
seek back and overwrite the placeholder with that offset. -/
def SerializedLocalizationWriter.emit (w : SerializedLocalizationWriter) :
    List Nat :=
  let table := encodeEntries w.entries
  writeLE32 (4 + table.length) ++ table ++ writeLE32 w.entries.length

/-- Modelled from the spec: the lookup of
`llvm::OnDiskChainedHashTable` (external to the repository), which
probes the index for `id` over the entries stored between the header
and the index root, returning the entry's byte string, or an empty
result when no entry matches. -/
def tableFind (file : List Nat) (off count id : Nat) : List Nat :=
  match count with
  | 0 => []
  | c + 1 =>
    let eid := readLE32 file off
    let len := readLE32 file (off + 4)
    if eid = id then (file.drop (off + 8)).take len
    else tableFind file (off + 8 + len) c id

/-- Embedding of `SerializedLocalizationProducer::initializeImpl` (lines 135-142):
read the table offset from the first four buffer bytes, construct the
table view, and return `true` unconditionally.  The pair is the
returned success flag and the offset read. -/
def serializedInitializeImpl (buffer : List Nat) : Bool × Nat :=
  (true, readLE32 buffer 0)

/-- Embedding of `SerializedLocalizationProducer::getMessage` (lines 144-150): probe
the table constructed from the buffer (root at the offset stored in
the header, data from byte 4); a zero-length result is returned as the
empty string. -/
def serializedGetMessage (file : List Nat) (id : Nat) : List Nat :=
  let tableOffset := readLE32 file 0
  let count := readLE32 file tableOffset
  tableFind file 4 count id

/-- Reference lookup the emitted table should implement: the first
entry inserted for `id`, or the empty byte string. -/
def specFind : List (Nat × List Nat) → Nat → List Nat
  | [], _ => []
  | e :: es, id => if e.1 = id then e.2 else specFind es id

/-- Insert a complete catalog — message `i` under identifier `i` for
every `i` — into a fresh writer, in declaration order. -/
def insertAll (messages : List (List Nat)) : SerializedLocalizationWriter :=
  messages.enum.foldl (fun w e => w.insert e.1 e.2) ⟨[]⟩

/-! ## `.def`-to-YAML converter -/

/-- The escaping loop of `DefToYAMLConverter::convert` (lines 282-292):
a double quote is emitted as backslash-quote, a backslash as two
backslashes, and any other character verbatim. -/
def escapeYAML : List Char → List Char
  | [] => []
  | c :: cs =>
    (if c = '\"' then ['\\', '\"']
     else if c = '\\' then ['\\', '\\']
     else [c]) ++ escapeYAML cs

/-- Embedding of `DefToYAMLConverter::convert` (lines 274-295): for each identifier
index, append `- id: <ID>\n`, then `  msg: "` followed by the escaped
message, then `"\r\n`. -/
def defToYAMLConvert (IDs Messages : List String) : List Char :=
  (List.range IDs.length).foldl
    (fun out i =>
      out ++ "- id: ".toList ++ (IDs.getD i "").toList ++ ['\n']
        ++ "  msg: \"".toList ++ escapeYAML (Messages.getD i "").toList
        ++ ['\"', '\r', '\n'])
    []

/-- The id line `convert` emits for identifier name `id`. -/
def idLineText (id : String) : List Char :=
  "- id: ".toList ++ id.toList ++ ['\n']

/-- The message line `convert` emits for message `msg`. -/
def msgLineText (msg : String) : List Char :=
  "  msg: \"".toList ++ escapeYAML msg.toList ++ ['\"', '\r', '\n']

/-- Text of the one record `convert` emits for identifier name `id`
with message `msg`: the id line followed by the message line. -/
def yamlRecordText (id msg : String) : List Char :=
  idLineText id ++ msgLineText msg

/-- Scan helper: `true` iff no line feed in `rest` lacks a preceding
carriage return, where `prev` is the character before `rest`. -/
def crlfAux : Char → List Char → Bool
  | _, [] => true
  | prev, c :: rest =>
    if c = '\n' ∧ prev ≠ '\r' then false else crlfAux c rest

/-- Holds iff every line of `s` is terminated with CR-LF, i.e. every
`'\n'` is immediately preceded by `'\r'`. -/
def linesCRLFTerminated (s : List Char) : Bool :=
  crlfAux ' ' s

/-! ## Theorems -/

/-- C7: per store instance the initialization state only moves forward:
from `NotInitialized` the first query moves it to exactly one of
`Initialized` or `FailedInitialization`; once out of `NotInitialized`
the producer is never changed again by `initializeIfNeeded` (so
re-initialization is never attempted and `NotInitialized` is never
re-entered), and every query in `FailedInitialization` returns the
externally supplied default message. -/
theorem claim_C7_state_machine (impl : InitImpl)
    (getMessage : List String → Nat → String) (printDiagnosticNames : Bool)
    (names : List String) (p : ProducerModel) (id : Nat) (d : String)
    (h : p.state = NotInitialized) :
    ((getMessageOr impl getMessage printDiagnosticNames names p id d).1.state
        = Initialized ∨
     (getMessageOr impl getMessage printDiagnosticNames names p id d).1.state
        = FailedInitialization) ∧
    (∀ q : ProducerModel, q.state ≠ NotInitialized →
      initializeIfNeeded impl q = q) ∧
    (∀ q : ProducerModel,
      (getMessageOr impl getMessage printDiagnosticNames names q id d).1
        = initializeIfNeeded impl q) ∧
    (∀ q : ProducerModel, q.state = FailedInitialization →
      (getMessageOr impl getMessage printDiagnosticNames names q id d).2 = d) := by
  have hinit : ∀ q : ProducerModel, q.state ≠ NotInitialized →
      initializeIfNeeded impl q = q := by
    intro q hq
    simp [initializeIfNeeded, hq]
  have hfst : ∀ q : ProducerModel,
      (getMessageOr impl getMessage printDiagnosticNames names q id d).1
        = initializeIfNeeded impl q := by
    intro q
    simp only [getMessageOr]
    by_cases hf : (initializeIfNeeded impl q).state = FailedInitialization
    · simp [hf]
    · by_cases hm : getMessage (initializeIfNeeded impl q).diagnostics id = ""
      · simp [hf, hm]
      · by_cases hp : printDiagnosticNames <;> simp [hf, hm, hp]
  refine ⟨?_, hinit, hfst, ?_⟩
  · rw [hfst p]
    simp only [initializeIfNeeded, h]
    by_cases hb : impl.1 <;> simp [hb]
  · intro q hq
    have : initializeIfNeeded impl q = q := by
      rw [hinit q]
      rw [hq]
      intro hc
      exact LocalizationProducerState.noConfusion hc
    simp [getMessageOr, this, hq]

/-- C7 witness: the theorem applied to a concrete fresh YAML-backed
store. -/
theorem claim_C7_state_machine_witness :
    ProducerModel.mk0.state = NotInitialized ∧
    (((getMessageOr (true, ["hola"]) (fun ds i => ds.getD i "") false ["A"]
        ProducerModel.mk0 0 "D").1.state = Initialized ∨
      (getMessageOr (true, ["hola"]) (fun ds i => ds.getD i "") false ["A"]
        ProducerModel.mk0 0 "D").1.state = FailedInitialization) ∧
     (∀ q : ProducerModel, q.state ≠ NotInitialized →
       initializeIfNeeded (true, ["hola"]) q = q) ∧
     (∀ q : ProducerModel,
       (getMessageOr (true, ["hola"]) (fun ds i => ds.getD i "") false ["A"]
         q 0 "D").1 = initializeIfNeeded (true, ["hola"]) q) ∧
     (∀ q : ProducerModel, q.state = FailedInitialization →
       (getMessageOr (true, ["hola"]) (fun ds i => ds.getD i "") false ["A"]
         q 0 "D").2 = "D")) :=
  ⟨rfl, claim_C7_state_machine (true, ["hola"]) (fun ds i => ds.getD i "")
    false ["A"] ProducerModel.mk0 0 "D" rfl⟩

/-- C8 counterexample: for a missing or unreadable backing file the
YAML and flat-text backends' `initializeImpl` never completes — the
unchecked `ErrorOr` dereference is fatal, so no success flag is
returned and a fresh store's first query reaches no state at all,
contrary to the claim that every store is `Initialized` after the
first query even when the backing file is missing. -/
theorem claim_C8_counterexample :
    yamlInitializeImpl ["A"] none = none ∧
    stringsInitializeImpl none = none ∧
    initializeIfNeededOpt (yamlInitializeImpl ["A"] none)
      ProducerModel.mk0 = none ∧
    initializeIfNeededOpt (stringsInitializeImpl none)
      ProducerModel.mk0 = none := by
  exact ⟨rfl, rfl, rfl, rfl⟩

/-- C8 amended: `return true` is the only return statement of each
backend's `initializeImpl` — the serialized backend completes for any
buffer, the YAML and flat-text backends for any successfully read
file — so whenever initialization completes, the first query on a
fresh store transitions it to `Initialized`, and
`FailedInitialization` is never entered by any backend; but for a
missing or unreadable backing file the YAML and flat-text backends
are fatal before returning (unchecked `ErrorOr` dereference), so the
store reaches no state at all there. -/
theorem claim_C8_initialize_amended (names : List String)
    (doc : YAMLDoc) (ds : List String) (buffer : List Nat)
    (p : ProducerModel) (h : p.state = NotInitialized) :
    yamlInitializeImpl names (some doc)
      = some (true, (yamlParse names doc).1) ∧
    stringsInitializeImpl (some ds) = some (true, ds) ∧
    (serializedInitializeImpl buffer).1 = true ∧
    initializeIfNeededOpt (yamlInitializeImpl names (some doc)) p
      = some { state := Initialized,
               diagnostics := (yamlParse names doc).1 } ∧
    initializeIfNeededOpt (stringsInitializeImpl (some ds)) p
      = some { state := Initialized, diagnostics := ds } ∧
    (initializeIfNeeded ((serializedInitializeImpl buffer).1, ds) p).state
      = Initialized ∧
    (∀ q : ProducerModel,
      initializeIfNeededOpt (yamlInitializeImpl names (some doc)) p = some q →
      q.state ≠ FailedInitialization) ∧
    (∀ q : ProducerModel,
      initializeIfNeededOpt (stringsInitializeImpl (some ds)) p = some q →
      q.state ≠ FailedInitialization) ∧
    yamlInitializeImpl names none = none ∧
    stringsInitializeImpl none = none := by
  have hyaml : initializeIfNeededOpt (yamlInitializeImpl names (some doc)) p
      = some { state := Initialized,
               diagnostics := (yamlParse names doc).1 } := by
    simp [initializeIfNeededOpt, initializeIfNeeded, h, yamlInitializeImpl]
  have hstrs : initializeIfNeededOpt (stringsInitializeImpl (some ds)) p
      = some { state := Initialized, diagnostics := ds } := by
    simp [initializeIfNeededOpt, initializeIfNeeded, h, stringsInitializeImpl]
  refine ⟨rfl, rfl, rfl, hyaml, hstrs, ?_, ?_, ?_, rfl, rfl⟩
  · simp [initializeIfNeeded, h, serializedInitializeImpl]
  · intro q hq
    rw [hyaml] at hq
    obtain rfl := Option.some.inj hq
    simp
  · intro q hq
    rw [hstrs] at hq
    obtain rfl := Option.some.inj hq
    simp

/-- C8 witness: the amended theorem at a fresh store, with a readable
but document-free YAML file, a readable empty strings file, and an
arbitrary serialized buffer. -/
theorem claim_C8_initialize_amended_witness :
    ProducerModel.mk0.state = NotInitialized ∧
    (yamlInitializeImpl ["A"] (some YAMLDoc.noDocument)
      = some (true, (yamlParse ["A"] YAMLDoc.noDocument).1) ∧
     stringsInitializeImpl (some []) = some (true, []) ∧
     (serializedInitializeImpl []).1 = true ∧
     initializeIfNeededOpt (yamlInitializeImpl ["A"] (some YAMLDoc.noDocument))
        ProducerModel.mk0
      = some { state := Initialized,
               diagnostics := (yamlParse ["A"] YAMLDoc.noDocument).1 } ∧
     initializeIfNeededOpt (stringsInitializeImpl (some []))
        ProducerModel.mk0
      = some { state := Initialized, diagnostics := [] } ∧
     (initializeIfNeeded ((serializedInitializeImpl []).1, [])
        ProducerModel.mk0).state = Initialized ∧
     (∀ q : ProducerModel,
       initializeIfNeededOpt (yamlInitializeImpl ["A"] (some YAMLDoc.noDocument))
         ProducerModel.mk0 = some q → q.state ≠ FailedInitialization) ∧
     (∀ q : ProducerModel,
       initializeIfNeededOpt (stringsInitializeImpl (some []))
         ProducerModel.mk0 = some q → q.state ≠ FailedInitialization) ∧
     yamlInitializeImpl ["A"] none = none ∧
     stringsInitializeImpl none = none) :=
  ⟨rfl, claim_C8_initialize_amended ["A"] YAMLDoc.noDocument [] []
    ProducerModel.mk0 rfl⟩

/-- C1 counterexample: on a fresh YAML store whose backing file is
missing, the first query's initialization is fatal (the failed file
read is dereferenced unchecked), so no producer state results at all —
in particular the store does not transition to `FailedInitialization`,
contrary to the claim. -/
theorem claim_C1_counterexample :
    initializeIfNeededOpt (yamlInitializeImpl ["A"] none)
      ProducerModel.mk0 = none ∧
    ¬ ∃ q : ProducerModel,
      initializeIfNeededOpt (yamlInitializeImpl ["A"] none)
        ProducerModel.mk0 = some q ∧ q.state = FailedInitialization := by
  refine ⟨rfl, ?_⟩
  rintro ⟨q, hq, -⟩
  rw [show initializeIfNeededOpt (yamlInitializeImpl ["A"] none)
    ProducerModel.mk0 = none from rfl] at hq
  exact Option.noConfusion hq

/-- C1 amended: `getMessageOr` returns the caller-supplied default
unchanged whenever the backend's message for `id` is empty, and
whenever the store is in `FailedInitialization`; but a missing or
unreadable backing file is not recovered into `FailedInitialization`:
the YAML and flat-text backends dereference the failed file read
unchecked, so the first query is fatal, with no state transition and
no value returned to the lookup caller. -/
theorem claim_C1_fallback_amended (impl : InitImpl)
    (getMessage : List String → Nat → String) (printDiagnosticNames : Bool)
    (names : List String) (p : ProducerModel) (id : Nat) (d : String)
    (hempty : getMessage (initializeIfNeeded impl p).diagnostics id = "") :
    (getMessageOr impl getMessage printDiagnosticNames names p id d).2 = d ∧
    (∀ q : ProducerModel, q.state = FailedInitialization →
      (getMessageOr impl getMessage printDiagnosticNames names q id d).2 = d) ∧
    (∀ (nm : List String) (q : ProducerModel), q.state = NotInitialized →
      initializeIfNeededOpt (yamlInitializeImpl nm none) q = none) ∧
    (∀ q : ProducerModel, q.state = NotInitialized →
      initializeIfNeededOpt (stringsInitializeImpl none) q = none) := by
  refine ⟨?_, ?_, ?_, ?_⟩
  · simp only [getMessageOr]
    by_cases hf : (initializeIfNeeded impl p).state = FailedInitialization <;>
      simp [hf, hempty]
  · intro q hq
    have : initializeIfNeeded impl q = q := by
      simp [initializeIfNeeded, hq]
    simp [getMessageOr, this, hq]
  · intro nm q hq
    simp [initializeIfNeededOpt, yamlInitializeImpl, hq]
  · intro q hq
    simp [initializeIfNeededOpt, stringsInitializeImpl, hq]

/-- C1 witness: the amended theorem applied to a fresh YAML store whose
backing file is readable but holds no document, asking for identifier
0 with default `"D"`: the default comes back. -/
theorem claim_C1_fallback_amended_witness :
    (fun ds i => (yamlGetMessage ds i).getD "")
      (initializeIfNeeded (true, (yamlParse ["A"] YAMLDoc.noDocument).1)
        ProducerModel.mk0).diagnostics 0 = "" ∧
    ((getMessageOr (true, (yamlParse ["A"] YAMLDoc.noDocument).1)
        (fun ds i => (yamlGetMessage ds i).getD "") false ["A"]
        ProducerModel.mk0 0 "D").2 = "D" ∧
     (∀ q : ProducerModel, q.state = FailedInitialization →
       (getMessageOr (true, (yamlParse ["A"] YAMLDoc.noDocument).1)
         (fun ds i => (yamlGetMessage ds i).getD "") false ["A"]
         q 0 "D").2 = "D") ∧
     (∀ (nm : List String) (q : ProducerModel), q.state = NotInitialized →
       initializeIfNeededOpt (yamlInitializeImpl nm none) q = none) ∧
     (∀ q : ProducerModel, q.state = NotInitialized →
       initializeIfNeededOpt (stringsInitializeImpl none) q = none)) :=
  ⟨rfl, claim_C1_fallback_amended (true, (yamlParse ["A"] YAMLDoc.noDocument).1)
    (fun ds i => (yamlGetMessage ds i).getD "") false ["A"]
    ProducerModel.mk0 0 "D" rfl⟩

/-- C10: when the `.db` file exists but opening it fails, `producerFor`
returns no producer without trying either text format; the YAML and
strings producers can only be returned when the `.db` file does not
exist. -/
theorem claim_C10_producerFor (yamlExists stringsExists : Bool) :
    producerFor true false yamlExists stringsExists = none ∧
    (∀ (db dbo y s : Bool) (k : ProducerKind),
      producerFor db dbo y s = some k → k ≠ ProducerKind.serialized →
      db = false) := by
  refine ⟨?_, ?_⟩
  · cases yamlExists <;> cases stringsExists <;> rfl
  · intro db dbo y s k hk hns
    cases db <;> cases dbo <;> cases y <;> cases s <;>
      simp_all [producerFor]

/-- C10 witness: both `.yaml` and `.strings` exist, the `.db` file
exists but fails to open — still no producer is returned. -/
theorem claim_C10_producerFor_witness :
    producerFor true false true true = none ∧
    (∀ (db dbo y s : Bool) (k : ProducerKind),
      producerFor db dbo y s = some k → k ≠ ProducerKind.serialized →
      db = false) :=
  claim_C10_producerFor true true

/-- The record-processing fold of `readYAML` never changes the length
of the diagnostics vector: a recognized id writes with `List.set`, an
unknown id leaves the vector alone. -/
theorem readYAML_foldl_length (names : List String) :
    ∀ (records : List YAMLRecord) (acc : List String × List String),
    (records.foldl (readYAMLStep names) acc).1.length = acc.1.length := by
  intro records
  induction records with
  | nil => intro acc; rfl
  | cons r rs ih =>
    intro acc
    rw [List.foldl_cons, ih]
    unfold readYAMLStep
    cases hm : readID names r.1 <;> simp [hm]

/-- C9: the YAML reader resizes the diagnostics vector to `NumDiags`
only when the parsed top-level sequence is non-empty; for an empty or
absent sequence the vector stays empty, and a subsequent unchecked
`diagnostics[id]` lookup is out of range for every identifier. -/
theorem claim_C9_empty_sequence_out_of_range (names : List String) :
    (readYAML names []).1 = [] ∧
    (yamlParse names YAMLDoc.noDocument).1 = [] ∧
    (∀ (r : YAMLRecord) (rs : List YAMLRecord),
      (readYAML names (r :: rs)).1.length = names.length) ∧
    (∀ id : Nat, yamlGetMessage (readYAML names []).1 id = none) ∧
    (∀ id : Nat, yamlGetMessage (yamlParse names YAMLDoc.noDocument).1 id
      = none) := by
  refine ⟨rfl, rfl, ?_, ?_, ?_⟩
  · intro r rs
    unfold readYAML
    rw [readYAML_foldl_length]
    simp
  · intro id
    simp [yamlGetMessage, readYAML]
  · intro id
    simp [yamlGetMessage, yamlParse]

/-- C2 counterexample: parsing one record with the unknown id `"ZZZ"`
and message `"hello"` retains only the raw id in the unknown-record
list; the message `"hello"` is not preserved anywhere in it, contrary
to the claim that both are. -/
theorem claim_C2_counterexample :
    (readYAML ["A", "B"] [("ZZZ", "hello")]).2 = ["ZZZ"] ∧
    "hello" ∉ (readYAML ["A", "B"] [("ZZZ", "hello")]).2 := by
  refine ⟨rfl, ?_⟩
  intro hmem
  rw [show (readYAML ["A", "B"] [("ZZZ", "hello")]).2 = ["ZZZ"] from rfl]
    at hmem
  simp at hmem

/-- C2 amended: parsing a structured-list file containing one record
whose string identifier is not in the identifier space succeeds,
leaves every identifier's catalog slot without a localized message
(exactly as absent as with no records at all), does not place the
record in the catalog, and retains exactly one unknown record
preserving the raw identifier verbatim — the record's message is
discarded, not retained. -/
theorem claim_C2_unknown_id_amended (names : List String) (u m : String)
    (hu : readID names u = none) :
    readYAML names [(u, m)] = (List.replicate names.length "", [u]) ∧
    (∀ i : Nat, slotLookup (readYAML names [(u, m)]).1 i
      = slotLookup (readYAML names []).1 i) ∧
    (∀ i : Nat, (readYAML names [(u, m)]).1.getD i "" = "") := by
  have hparse : readYAML names [(u, m)] = (List.replicate names.length "", [u]) := by
    simp [readYAML, readYAMLStep, hu]
  refine ⟨hparse, ?_, ?_⟩
  · intro i
    rw [hparse]
    show slotLookup (List.replicate names.length "") i = slotLookup [] i
    unfold slotLookup
    rcases h : (List.replicate names.length "").get? i with _ | s
    · simp
    · have : s = "" := by
        have := List.get?_mem h
        simpa using List.eq_of_mem_replicate this
      simp [this]
  · intro i
    rw [hparse]
    rcases Nat.lt_or_ge i names.length with hlt | hge
    · simp [List.getD, List.getElem?_replicate, hlt]
    · simp [List.getD, List.getElem?_replicate, Nat.not_lt.2 hge]

/-- C2 witness: the amended theorem at the concrete two-identifier
space with the unknown record `("ZZZ", "hello")`. -/
theorem claim_C2_unknown_id_amended_witness :
    readID ["A", "B"] "ZZZ" = none ∧
    (readYAML ["A", "B"] [("ZZZ", "hello")]
        = (List.replicate (["A", "B"] : List String).length "", ["ZZZ"]) ∧
     (∀ i : Nat, slotLookup (readYAML ["A", "B"] [("ZZZ", "hello")]).1 i
        = slotLookup (readYAML ["A", "B"] []).1 i) ∧
     (∀ i : Nat, (readYAML ["A", "B"] [("ZZZ", "hello")]).1.getD i "" = "")) :=
  ⟨rfl, claim_C2_unknown_id_amended ["A", "B"] "ZZZ" "hello" rfl⟩

/-- Membership in the `forEachAvailable` loop output starting at `i`:
exactly the pairs `(j, t)` with `i ≤ j`, `j` in range, and `t` the
non-empty translation stored at `j`. -/
theorem forEachLoop_mem (diags : List String) (j : Nat) (t : String) :
    ∀ i : Nat, (j, t) ∈ forEachLoop diags i ↔
      i ≤ j ∧ j < diags.length ∧ diags.getD j "" = t ∧ t ≠ "" := by
  intro i
  induction i using forEachLoop.induct diags with
  | case1 i h translation hemp ih =>
    have hc : diags.getD i "" = "" := hemp
    rw [forEachLoop]
    simp only [dif_pos h, hc, if_pos]
    rw [ih]
    constructor
    · rintro ⟨h1, h2, h3, h4⟩
      exact ⟨by omega, h2, h3, h4⟩
    · rintro ⟨h1, h2, h3, h4⟩
      refine ⟨?_, h2, h3, h4⟩
      rcases Nat.eq_or_lt_of_le h1 with he | hlt
      · exfalso
        apply h4
        rw [← h3, ← he]
        exact hc
      · omega
  | case2 i h translation hemp ih =>
    have hc : ¬ diags.getD i "" = "" := hemp
    rw [forEachLoop]
    simp only [dif_pos h, if_neg hc]
    rw [List.mem_cons, ih]
    constructor
    · rintro (heq | ⟨h1, h2, h3, h4⟩)
      · rw [Prod.mk.injEq] at heq
        obtain ⟨hj, ht⟩ := heq
        subst hj
        exact ⟨Nat.le_refl j, h, ht.symm, ht ▸ hc⟩
      · exact ⟨by omega, h2, h3, h4⟩
    · rintro ⟨h1, h2, h3, h4⟩
      rcases Nat.eq_or_lt_of_le h1 with he | hlt
      · subst he
        exact Or.inl (by rw [Prod.mk.injEq]; exact ⟨rfl, h3.symm⟩)
      · exact Or.inr ⟨hlt, h2, h3, h4⟩
  | case3 i h =>
    rw [forEachLoop]
    rw [dif_neg h]
    simp only [List.not_mem_nil, false_iff]
    rintro ⟨h1, h2, -, -⟩
    omega

/-- The identifiers in the `forEachAvailable` loop output are strictly
ascending. -/
theorem forEachLoop_pairwise (diags : List String) :
    ∀ i : Nat, (forEachLoop diags i).Pairwise (fun a b => a.1 < b.1) := by
  intro i
  induction i using forEachLoop.induct diags with
  | case1 i h translation hemp ih =>
    rw [forEachLoop]
    simp only [dif_pos h, if_pos (show diags.getD i "" = "" from hemp)]
    exact ih
  | case2 i h translation hemp ih =>
    rw [forEachLoop]
    simp only [dif_pos h, if_neg (show ¬ diags.getD i "" = "" from hemp)]
    refine List.Pairwise.cons ?_ ih
    rintro ⟨b1, b2⟩ hb
    have hm := (forEachLoop_mem diags b1 b2 (i + 1)).1 hb
    show i < b1
    omega
  | case3 i h =>
    rw [forEachLoop, dif_neg h]
    exact List.Pairwise.nil

/-- C5: `forEachAvailable` triggers lazy initialization; on
`FailedInitialization` it invokes the callback zero times; otherwise
the invocations carry strictly ascending identifiers and consist of
exactly the pairs `(id, text)` whose stored entry is non-empty —
identifiers with empty or absent entries are never visited. -/
theorem claim_C5_forEachAvailable (impl : InitImpl) (p : ProducerModel) :
    (forEachAvailable impl p).1 = initializeIfNeeded impl p ∧
    (forEachAvailable impl p).1.state ≠ NotInitialized ∧
    ((forEachAvailable impl p).1.state = FailedInitialization →
      (forEachAvailable impl p).2 = []) ∧
    ((forEachAvailable impl p).2.Pairwise (fun a b => a.1 < b.1)) ∧
    ((forEachAvailable impl p).1.state ≠ FailedInitialization →
      ∀ (j : Nat) (t : String),
        ((j, t) ∈ (forEachAvailable impl p).2 ↔
          j < (initializeIfNeeded impl p).diagnostics.length ∧
          (initializeIfNeeded impl p).diagnostics.getD j "" = t ∧ t ≠ "")) := by
  have hstate : (initializeIfNeeded impl p).state ≠ NotInitialized := by
    unfold initializeIfNeeded
    by_cases hp : p.state = NotInitialized
    · by_cases hb : impl.1 <;> simp [hp, hb]
    · simp [hp]
  unfold forEachAvailable
  by_cases hf : (initializeIfNeeded impl p).state = FailedInitialization
  · rw [if_pos hf]
    exact ⟨rfl, hstate, fun _ => rfl, List.Pairwise.nil, fun hc => absurd hf hc⟩
  · rw [if_neg hf]
    refine ⟨rfl, hstate, fun hc => absurd hc hf, forEachLoop_pairwise _ 0, ?_⟩
    intro _ j t
    rw [forEachLoop_mem]
    constructor
    · rintro ⟨-, h2, h3, h4⟩
      exact ⟨h2, h3, h4⟩
    · rintro ⟨h2, h3, h4⟩
      exact ⟨Nat.zero_le j, h2, h3, h4⟩

/-- C5 witness: the theorem at a concrete store holding translations
for identifiers 0 and 2 and an empty entry at 1. -/
theorem claim_C5_forEachAvailable_witness :
    (forEachAvailable (true, ["a", "", "b"]) ProducerModel.mk0).1
      = initializeIfNeeded (true, ["a", "", "b"]) ProducerModel.mk0 ∧
    (forEachAvailable (true, ["a", "", "b"]) ProducerModel.mk0).1.state
      ≠ NotInitialized ∧
    ((forEachAvailable (true, ["a", "", "b"]) ProducerModel.mk0).1.state
        = FailedInitialization →
      (forEachAvailable (true, ["a", "", "b"]) ProducerModel.mk0).2 = []) ∧
    ((forEachAvailable (true, ["a", "", "b"]) ProducerModel.mk0).2.Pairwise
      (fun a b => a.1 < b.1)) ∧
    ((forEachAvailable (true, ["a", "", "b"]) ProducerModel.mk0).1.state
        ≠ FailedInitialization →
      ∀ (j : Nat) (t : String),
        ((j, t) ∈ (forEachAvailable (true, ["a", "", "b"]) ProducerModel.mk0).2 ↔
          j < (initializeIfNeeded (true, ["a", "", "b"])
                ProducerModel.mk0).diagnostics.length ∧
          (initializeIfNeeded (true, ["a", "", "b"])
            ProducerModel.mk0).diagnostics.getD j "" = t ∧ t ≠ "")) :=
  claim_C5_forEachAvailable (true, ["a", "", "b"]) ProducerModel.mk0

/-- C4 counterexample: scanning the message body `";` — an unescaped
double quote at scan position 0 immediately followed by a semicolon,
i.e. the empty message `"id" = "";` — does not terminate the message:
the scanner's `assert(i > 0)` (line 412) is fatal there and the scan
aborts with no result, while the same terminator one position later
(body `a";`) succeeds. -/
theorem claim_C4_counterexample :
    (['\"', ';'] : List Char).getD 0 ' ' = '\"' ∧
    (['\"', ';'] : List Char).getD (0 + 1) ' ' = ';' ∧
    scanMessage ['\"', ';'] 0 [] = none ∧
    scanMessage ['a', '\"', ';'] 0 [] = some (['a'], 3) := by
  refine ⟨rfl, rfl, ?_, ?_⟩
  · rw [scanMessage]
    simp
  · rw [scanMessage]
    rw [dif_pos (by decide)]
    simp only [List.getD_cons_zero, reduceIte, reduceCtorEq]
    rw [scanMessage]
    rw [dif_pos (by decide)]
    simp

/-- C4 amended: at a double quote during the flat-text message scan,
(1) a quote preceded by a backslash is un-escaped — the accumulated
message's trailing backslash is dropped, a literal quote is appended,
and scanning continues; (2) an unescaped quote at a positive scan
position immediately followed by `;` terminates the message; (3) any
other unescaped quote at a positive position is fatal — the scan of
the file aborts with no result rather than recovering; and (4) a quote
at scan position 0 (an empty message) trips `assert(i > 0)` and is
likewise fatal, not a terminator. -/
theorem claim_C4_strings_scanner_amended (buffer : List Char) (i : Nat)
    (msg : List Char) (hi : i < buffer.length)
    (hq : buffer.getD i ' ' = '\"') :
    (0 < i → buffer.getD (i - 1) ' ' = '\\' →
      scanMessage buffer i msg
        = scanMessage buffer (i + 1) (msg.dropLast ++ ['\"'])) ∧
    (0 < i → buffer.getD (i - 1) ' ' ≠ '\\' → i + 1 < buffer.length →
      buffer.getD (i + 1) ' ' = ';' →
      scanMessage buffer i msg = some (msg, i + 2)) ∧
    (0 < i → buffer.getD (i - 1) ' ' ≠ '\\' →
      ¬ (i + 1 < buffer.length ∧ buffer.getD (i + 1) ' ' = ';') →
      scanMessage buffer i msg = none) ∧
    (i = 0 → scanMessage buffer i msg = none) := by
  refine ⟨?_, ?_, ?_, ?_⟩
  · intro hpos h1
    have hz : ¬ i = 0 := by omega
    rw [scanMessage, dif_pos hi]
    simp only [hq, ne_eq, not_true_eq_false, if_false, dif_neg hz, if_pos h1]
  · intro hpos h1 h2 h3
    have hz : ¬ i = 0 := by omega
    rw [scanMessage, dif_pos hi]
    simp only [hq, ne_eq, not_true_eq_false, if_false, dif_neg hz, if_neg h1,
      if_pos (And.intro h2 h3)]
  · intro hpos h1 h2
    have hz : ¬ i = 0 := by omega
    rw [scanMessage, dif_pos hi]
    simp only [hq, ne_eq, not_true_eq_false, if_false, dif_neg hz, if_neg h1,
      if_neg h2]
  · intro h0
    subst h0
    rw [scanMessage, dif_pos hi]
    simp only [hq, ne_eq, not_true_eq_false, if_false]
    simp

/-- C4 witness: the amended theorem at the buffer `a\";` with the scan
sitting on the escaped quote at index 2, the accumulated message being
the already-pushed `a\`. -/
theorem claim_C4_strings_scanner_amended_witness :
    (2 : Nat) < (['a', '\\', '\"', ';'] : List Char).length ∧
    (['a', '\\', '\"', ';'] : List Char).getD 2 ' ' = '\"' ∧
    ((0 < 2 → (['a', '\\', '\"', ';'] : List Char).getD (2 - 1) ' ' = '\\' →
      scanMessage ['a', '\\', '\"', ';'] 2 ['a', '\\']
        = scanMessage ['a', '\\', '\"', ';'] (2 + 1)
            ((['a', '\\'] : List Char).dropLast ++ ['\"'])) ∧
     (0 < 2 → (['a', '\\', '\"', ';'] : List Char).getD (2 - 1) ' ' ≠ '\\' →
      2 + 1 < (['a', '\\', '\"', ';'] : List Char).length →
      (['a', '\\', '\"', ';'] : List Char).getD (2 + 1) ' ' = ';' →
      scanMessage ['a', '\\', '\"', ';'] 2 ['a', '\\']
        = some (['a', '\\'], 2 + 2)) ∧
     (0 < 2 → (['a', '\\', '\"', ';'] : List Char).getD (2 - 1) ' ' ≠ '\\' →
      ¬ (2 + 1 < (['a', '\\', '\"', ';'] : List Char).length ∧
         (['a', '\\', '\"', ';'] : List Char).getD (2 + 1) ' ' = ';') →
      scanMessage ['a', '\\', '\"', ';'] 2 ['a', '\\'] = none) ∧
     ((2 : Nat) = 0 →
      scanMessage ['a', '\\', '\"', ';'] 2 ['a', '\\'] = none)) :=
  ⟨by decide, by decide,
    claim_C4_strings_scanner_amended ['a', '\\', '\"', ';'] 2 ['a', '\\']
      (by decide) (by decide)⟩

/-- Appending through a left fold is concatenation of the pieces. -/
theorem foldl_append_flatten {A B : Type} (f : A → List B) :
    ∀ (l : List A) (acc : List B),
    l.foldl (fun out i => out ++ f i) acc = acc ++ (l.map f).flatten := by
  intro l
  induction l with
  | nil => intro acc; simp
  | cons x xs ih =>
    intro acc
    simp [ih, List.append_assoc]

/-- The converter's output is the concatenation, over the identifier
indices in declaration order, of one record text per identifier. -/
theorem defToYAMLConvert_records (IDs Messages : List String) :
    defToYAMLConvert IDs Messages
      = ((List.range IDs.length).map
          (fun i => yamlRecordText (IDs.getD i "") (Messages.getD i ""))).flatten := by
  have h := foldl_append_flatten
    (fun i => yamlRecordText (IDs.getD i "") (Messages.getD i ""))
    (List.range IDs.length) []
  rw [List.nil_append] at h
  rw [← h]
  unfold defToYAMLConvert yamlRecordText idLineText msgLineText
  congr 1
  funext out i
  simp [List.append_assoc]

/-- The converter's character loop implements the per-character
escaping rule: a quote becomes backslash-quote, a backslash becomes
two backslashes, anything else is copied. -/
theorem escapeYAML_eq_flatMap (msg : List Char) :
    escapeYAML msg = msg.flatMap (fun c =>
      if c = '\"' then ['\\', '\"']
      else if c = '\\' then ['\\', '\\']
      else [c]) := by
  induction msg with
  | nil => rfl
  | cons c cs ih => simp [escapeYAML, ih]

/-- An id line over an identifier containing no carriage return does
not end with CR-LF. -/
theorem idLineText_not_crlf (id : String) (h : '\r' ∉ id.toList) :
    ¬ ∃ s : List Char, idLineText id = s ++ ['\r', '\n'] := by
  rintro ⟨s, hs⟩
  have h2 : ("- id: ".toList ++ id.toList) ++ ['\n'] = (s ++ ['\r']) ++ ['\n'] := by
    have e1 : idLineText id = ("- id: ".toList ++ id.toList) ++ ['\n'] := by
      unfold idLineText
      rw [List.append_assoc]
    have e2 : (s ++ ['\r']) ++ ['\n'] = s ++ ['\r', '\n'] := by
      rw [List.append_assoc]
      rfl
    rw [← e1, e2]
    exact hs
  have h3 : "- id: ".toList ++ id.toList = s ++ ['\r'] :=
    List.append_cancel_right h2
  have h4 : '\r' ∈ "- id: ".toList ++ id.toList := by
    rw [h3]
    exact List.mem_append_right s (List.mem_singleton.2 rfl)
  rcases List.mem_append.1 h4 with h5 | h5
  · simp at h5
  · exact h h5

/-- C6 counterexample: for the one-identifier catalog `A ↦ m` the
converter's output is `- id: A\n  msg: "m"\r\n`, whose id line ends
with a bare LF — so not every line of the output is terminated with
CR-LF, contrary to the claim. -/
theorem claim_C6_counterexample :
    defToYAMLConvert ["A"] ["m"] = "- id: A\n  msg: \"m\"\r\n".toList ∧
    linesCRLFTerminated (defToYAMLConvert ["A"] ["m"]) = false := by
  exact ⟨by decide, by decide⟩

/-- C6 amended: the structured-list serializer emits one record per
identifier in identifier-declaration order, each message escaped so a
literal quote becomes backslash-quote and a literal backslash becomes
two backslashes; each record's message line is terminated with CR-LF,
but its id line is terminated with a bare LF (for any identifier name
not itself containing a carriage return), not with CR-LF. -/
theorem claim_C6_converter_amended (IDs Messages : List String) :
    defToYAMLConvert IDs Messages
      = ((List.range IDs.length).map
          (fun i => yamlRecordText (IDs.getD i "") (Messages.getD i ""))).flatten ∧
    (∀ msg : List Char, escapeYAML msg = msg.flatMap (fun c =>
      if c = '\"' then ['\\', '\"']
      else if c = '\\' then ['\\', '\\']
      else [c])) ∧
    (∀ msg : String, ∃ s : List Char, msgLineText msg = s ++ ['\r', '\n']) ∧
    (∀ id : String, (∃ s : List Char, idLineText id = s ++ ['\n']) ∧
      ('\r' ∉ id.toList →
        ¬ ∃ s : List Char, idLineText id = s ++ ['\r', '\n'])) := by
  refine ⟨defToYAMLConvert_records IDs Messages, escapeYAML_eq_flatMap, ?_, ?_⟩
  · intro msg
    refine ⟨"  msg: \"".toList ++ escapeYAML msg.toList ++ ['\"'], ?_⟩
    unfold msgLineText
    simp [List.append_assoc]
  · intro id
    refine ⟨⟨"- id: ".toList ++ id.toList, ?_⟩, idLineText_not_crlf id⟩
    unfold idLineText
    rw [List.append_assoc]

/-- C6 witness: the amended theorem at the one-identifier catalog
`A ↦ m`. -/
theorem claim_C6_converter_amended_witness :
    defToYAMLConvert ["A"] ["m"]
      = ((List.range (["A"] : List String).length).map
          (fun i => yamlRecordText ((["A"] : List String).getD i "")
            ((["m"] : List String).getD i ""))).flatten ∧
    (∀ msg : List Char, escapeYAML msg = msg.flatMap (fun c =>
      if c = '\"' then ['\\', '\"']
      else if c = '\\' then ['\\', '\\']
      else [c])) ∧
    (∀ msg : String, ∃ s : List Char, msgLineText msg = s ++ ['\r', '\n']) ∧
    (∀ id : String, (∃ s : List Char, idLineText id = s ++ ['\n']) ∧
      ('\r' ∉ id.toList →
        ¬ ∃ s : List Char, idLineText id = s ++ ['\r', '\n'])) :=
  claim_C6_converter_amended ["A"] ["m"]

/-- Reading back a just-written little-endian 32-bit value recovers it
when the value fits in 32 bits. -/
theorem readLE32_writeLE32 (n : Nat) (rest : List Nat)
    (h : n < 4294967296) :
    readLE32 (writeLE32 n ++ rest) 0 = n := by
  show (writeLE32 n ++ rest).getD 0 0 +
    256 * ((writeLE32 n ++ rest).getD 1 0 +
      256 * ((writeLE32 n ++ rest).getD 2 0 +
        256 * (writeLE32 n ++ rest).getD 3 0)) = n
  simp only [writeLE32, List.cons_append, List.getD_cons_zero,
    List.getD_cons_succ]
  omega

/-- A byte read past a known region is a read in the remainder. -/
theorem getD_append_at (pre bs : List Nat) (k : Nat) :
    (pre ++ bs).getD (pre.length + k) 0 = bs.getD k 0 := by
  rw [List.getD_append_right]
  · congr 1
    omega
  · omega

/-- A 32-bit read past a known region is a read in the remainder. -/
theorem readLE32_append (pre bs : List Nat) (k : Nat) :
    readLE32 (pre ++ bs) (pre.length + k) = readLE32 bs k := by
  unfold readLE32
  have h1 : pre.length + k + 1 = pre.length + (k + 1) := by omega
  have h2 : pre.length + k + 2 = pre.length + (k + 2) := by omega
  have h3 : pre.length + k + 3 = pre.length + (k + 3) := by omega
  rw [h1, h2, h3, getD_append_at, getD_append_at, getD_append_at,
    getD_append_at]

/-- Probing the serialized entry region finds, for each id, the byte
string of its first entry, provided every entry's id and length fit in
32 bits. -/
theorem tableFind_encodeEntries (es : List (Nat × List Nat)) :
    ∀ (pre post : List Nat) (id : Nat),
    (∀ e ∈ es, e.1 < 4294967296 ∧ e.2.length < 4294967296) →
    tableFind (pre ++ (encodeEntries es ++ post)) pre.length es.length id
      = specFind es id := by
  induction es with
  | nil => intro pre post id hwf; rfl
  | cons e es ih =>
    intro pre post id hwf
    obtain ⟨he1, he2⟩ := hwf e (List.mem_cons_self e es)
    have hwf' : ∀ x ∈ es, x.1 < 4294967296 ∧ x.2.length < 4294967296 :=
      fun x hx => hwf x (List.mem_cons_of_mem e hx)
    have hfile : pre ++ (encodeEntries (e :: es) ++ post)
        = pre ++ (writeLE32 e.1 ++ (writeLE32 e.2.length
            ++ (e.2 ++ (encodeEntries es ++ post)))) := by
      show pre ++ ((encodeEntry e ++ encodeEntries es) ++ post) = _
      unfold encodeEntry
      simp [List.append_assoc]
    rw [hfile]
    simp only [List.length_cons]
    rw [tableFind]
    have heid : readLE32 (pre ++ (writeLE32 e.1 ++ (writeLE32 e.2.length
        ++ (e.2 ++ (encodeEntries es ++ post))))) pre.length = e.1 := by
      have h0 := readLE32_append pre (writeLE32 e.1 ++ (writeLE32 e.2.length
        ++ (e.2 ++ (encodeEntries es ++ post)))) 0
      rw [Nat.add_zero] at h0
      rw [h0, readLE32_writeLE32 _ _ he1]
    have hform2 : pre ++ (writeLE32 e.1 ++ (writeLE32 e.2.length
        ++ (e.2 ++ (encodeEntries es ++ post))))
        = (pre ++ writeLE32 e.1) ++ (writeLE32 e.2.length
            ++ (e.2 ++ (encodeEntries es ++ post))) := by
      simp [List.append_assoc]
    have hlen4 : (pre ++ writeLE32 e.1).length = pre.length + 4 := by
      simp [writeLE32]
    have hlen : readLE32 (pre ++ (writeLE32 e.1 ++ (writeLE32 e.2.length
        ++ (e.2 ++ (encodeEntries es ++ post))))) (pre.length + 4)
        = e.2.length := by
      rw [hform2, ← hlen4]
      have h0 := readLE32_append (pre ++ writeLE32 e.1)
        (writeLE32 e.2.length ++ (e.2 ++ (encodeEntries es ++ post))) 0
      rw [Nat.add_zero] at h0
      rw [h0, readLE32_writeLE32 _ _ he2]
    rw [heid, hlen]
    by_cases hc : e.1 = id
    · rw [if_pos hc]
      have hform3 : pre ++ (writeLE32 e.1 ++ (writeLE32 e.2.length
          ++ (e.2 ++ (encodeEntries es ++ post))))
          = ((pre ++ writeLE32 e.1) ++ writeLE32 e.2.length)
              ++ (e.2 ++ (encodeEntries es ++ post)) := by
        simp [List.append_assoc]
      have hlen8 : ((pre ++ writeLE32 e.1) ++ writeLE32 e.2.length).length
          = pre.length + 8 := by
        simp [writeLE32]
      rw [hform3, ← hlen8, List.drop_left, List.take_left]
      show e.2 = specFind (e :: es) id
      rw [specFind]
      rw [if_pos hc]
    · rw [if_neg hc]
      have hform4 : pre ++ (writeLE32 e.1 ++ (writeLE32 e.2.length
          ++ (e.2 ++ (encodeEntries es ++ post))))
          = (pre ++ encodeEntry e) ++ (encodeEntries es ++ post) := by
        unfold encodeEntry
        simp [List.append_assoc]
      have hlenE : (pre ++ encodeEntry e).length
          = pre.length + (8 + e.2.length) := by
        unfold encodeEntry
        simp [writeLE32]
        omega
      have harith : pre.length + 8 + e.2.length
          = (pre ++ encodeEntry e).length := by
        rw [hlenE]
        omega
      rw [hform4, harith, ih (pre ++ encodeEntry e) post id hwf']
      rw [specFind]
      rw [if_neg hc]

/-- The reference lookup over an enumerated catalog returns the message
stored at the requested index. -/
theorem specFind_enumFrom (messages : List (List Nat)) :
    ∀ (k id : Nat), k ≤ id → id - k < messages.length →
    specFind (List.enumFrom k messages) id = messages.getD (id - k) [] := by
  induction messages with
  | nil => intro k id hk hlt; simp at hlt
  | cons m ms ih =>
    intro k id hk hlt
    rw [List.enumFrom, specFind]
    by_cases hc : k = id
    · rw [if_pos hc, show id - k = 0 from by omega]
      rfl
    · rw [if_neg hc]
      have h1 : k + 1 ≤ id := by omega
      have h2 : id - (k + 1) < ms.length := by
        simp at hlt
        omega
      rw [ih (k + 1) id h1 h2, show id - k = (id - (k + 1)) + 1 from by omega]
      rfl

/-- Folding `insert` over a list of pairs records exactly those pairs,
in order, after whatever the writer already held. -/
theorem insertAll_entries :
    ∀ (l acc : List (Nat × List Nat)),
    (l.foldl (fun w e => w.insert e.1 e.2)
      (SerializedLocalizationWriter.mk acc)).entries = acc ++ l := by
  intro l
  induction l with
  | nil => intro acc; simp
  | cons x xs ih =>
    intro acc
    rw [List.foldl_cons]
    show (xs.foldl (fun w e => w.insert e.1 e.2)
      (SerializedLocalizationWriter.mk (acc ++ [x]))).entries = acc ++ (x :: xs)
    rw [ih]
    simp

/-- C3: for a complete catalog (one message per identifier), inserting
every `(identifier, text)` pair into the writer, emitting, and reading
the emitted bytes back returns, for every identifier, exactly the
original byte sequence.  The size hypotheses say the catalog fits the
32-bit offsets of the on-disk format. -/
theorem claim_C3_binary_roundtrip (messages : List (List Nat))
    (hN : messages.length < 4294967296)
    (hm : ∀ m ∈ messages, m.length < 4294967296)
    (htab : 4 + (encodeEntries messages.enum).length < 4294967296)
    (id : Nat) (hid : id < messages.length) :
    serializedGetMessage (insertAll messages).emit id = messages.getD id [] := by
  have hentries : (insertAll messages).entries = messages.enum := by
    unfold insertAll
    have h := insertAll_entries messages.enum []
    simpa using h
  have hemit : (insertAll messages).emit
      = writeLE32 (4 + (encodeEntries messages.enum).length)
          ++ (encodeEntries messages.enum ++ writeLE32 messages.length) := by
    unfold SerializedLocalizationWriter.emit
    rw [hentries, List.enum_length]
    simp [List.append_assoc]
  have hcnt : readLE32 (writeLE32 (4 + (encodeEntries messages.enum).length)
      ++ (encodeEntries messages.enum ++ writeLE32 messages.length))
      (4 + (encodeEntries messages.enum).length) = messages.length := by
    have hform : writeLE32 (4 + (encodeEntries messages.enum).length)
        ++ (encodeEntries messages.enum ++ writeLE32 messages.length)
        = (writeLE32 (4 + (encodeEntries messages.enum).length)
            ++ encodeEntries messages.enum) ++ (writeLE32 messages.length ++ []) := by
      simp [List.append_assoc]
    have hlenp : (writeLE32 (4 + (encodeEntries messages.enum).length)
        ++ encodeEntries messages.enum).length
        = 4 + (encodeEntries messages.enum).length := by
      simp [writeLE32]
      omega
    have h0 := readLE32_append (writeLE32 (4 + (encodeEntries messages.enum).length)
      ++ encodeEntries messages.enum) (writeLE32 messages.length ++ []) 0
    rw [Nat.add_zero, hlenp] at h0
    rw [hform, h0, readLE32_writeLE32 _ _ hN]
  unfold serializedGetMessage
  rw [hemit]
  show tableFind
      (writeLE32 (4 + (encodeEntries messages.enum).length)
        ++ (encodeEntries messages.enum ++ writeLE32 messages.length))
      4
      (readLE32 (writeLE32 (4 + (encodeEntries messages.enum).length)
        ++ (encodeEntries messages.enum ++ writeLE32 messages.length))
        (readLE32 (writeLE32 (4 + (encodeEntries messages.enum).length)
          ++ (encodeEntries messages.enum ++ writeLE32 messages.length)) 0))
      id = messages.getD id []
  rw [readLE32_writeLE32 _ _ htab, hcnt]
  have hwf : ∀ e ∈ messages.enum, e.1 < 4294967296 ∧ e.2.length < 4294967296 := by
    intro e he
    have hg : messages[e.1]? = some e.2 := List.mem_enum_iff_getElem?.1 he
    have hlt : e.1 < messages.length := by
      by_contra hge
      rw [List.getElem?_eq_none (by omega)] at hg
      exact Option.noConfusion hg
    have hmem : e.2 ∈ messages := List.getElem?_mem hg
    exact ⟨by omega, hm e.2 hmem⟩
  have hfind := tableFind_encodeEntries messages.enum
    (writeLE32 (4 + (encodeEntries messages.enum).length))
    (writeLE32 messages.length) id hwf
  rw [List.enum_length] at hfind
  rw [show (writeLE32 (4 + (encodeEntries messages.enum).length)).length = 4
    from rfl] at hfind
  rw [hfind]
  have hsf := specFind_enumFrom messages 0 id (Nat.zero_le id)
    (by simpa using hid)
  rw [show List.enum messages = List.enumFrom 0 messages from rfl, hsf]
  rfl

/-- C3 witness: the theorem at the three-message catalog
`0 ↦ [72, 105]`, `1 ↦ []`, `2 ↦ [66]`, reading back identifier 2. -/
theorem claim_C3_binary_roundtrip_witness :
    ([[72, 105], [], [66]] : List (List Nat)).length < 4294967296 ∧
    (∀ m ∈ ([[72, 105], [], [66]] : List (List Nat)),
      m.length < 4294967296) ∧
    4 + (encodeEntries ([[72, 105], [], [66]] : List (List Nat)).enum).length
      < 4294967296 ∧
    2 < ([[72, 105], [], [66]] : List (List Nat)).length ∧
    serializedGetMessage (insertAll [[72, 105], [], [66]]).emit 2
      = ([[72, 105], [], [66]] : List (List Nat)).getD 2 [] :=
  ⟨by decide, by decide, by decide, by decide,
    claim_C3_binary_roundtrip [[72, 105], [], [66]] (by decide) (by decide)
      (by decide) 2 (by decide)⟩

end LocalizationFormat
